import Mathlib

/-!
Verification of the Translation Pipeline Routing Engine of
src/livekit-app/translation-agent/realtime_agent_simple.py.

The Python class SimpleTranslationAgent keeps three dictionaries:
participant_languages (participant id to the language they want to hear),
translation_enabled (participant id to bool), and assistants (a map keyed by
the string "{speaker_id}:{target_language}" holding one running provider
session per route).  The core operation _update_assistants_for_all_languages
recomputes the set of required routes from the current registry and starts or
stops sessions so that the assistants map matches it.

Python dictionaries are embedded as association lists with unique keys
(uniqueness is a hypothesis where a theorem needs it); dictionary iteration
order is insertion order, so deduplication keeps the first occurrence.
-/

/-- First-occurrence deduplication with an accumulator of already seen
elements; mirrors the key set of a Python dict built by insertion
(target_languages in _update_assistants_for_all_languages). -/
def dedupKeepFirstAux (seen : List String) : List String → List String
  | [] => []
  | x :: xs =>
    if seen.contains x then dedupKeepFirstAux seen xs
    else x :: dedupKeepFirstAux (seen ++ [x]) xs

/-- Deduplicate a list keeping the first occurrence of each element. -/
def dedupKeepFirst (l : List String) : List String :=
  dedupKeepFirstAux [] l

/-- The registry state read by _update_assistants_for_all_languages:
speakers is the list of identities of non-agent remote participants that have
a published audio track (computed from ctx.room.remote_participants, a dict,
so the list has no duplicate identities); participantLanguages and
translationEnabled embed the dictionaries self.participant_languages and
self.translation_enabled. -/
structure Registry where
  speakers : List String
  participantLanguages : List (String × String)
  translationEnabled : List (String × Bool)

/-- self.translation_enabled.get(participant_id, False). -/
def enabledFor (r : Registry) (pid : String) : Bool :=
  (r.translationEnabled.lookup pid).getD false

/-- The keys of the target_languages dict: the languages of participants with
translation enabled, first-occurrence order, as built by the loop
"for participant_id, language in self.participant_languages.items():
   if self.translation_enabled.get(participant_id, False): ...". -/
def targetLanguages (r : Registry) : List String :=
  dedupKeepFirst ((r.participantLanguages.filter (fun p => enabledFor r p.1)).map Prod.snd)

/-- The routes contributed by one speaker in the expected_assistants loop:
skipped entirely when the speaker has no language preference (None) or an
empty one (Python falsiness of ""), and the same-language pair
speaker_language == target_language is skipped. -/
def routesForSpeaker (r : Registry) (s : String) : List (String × String) :=
  match r.participantLanguages.lookup s with
  | none => []
  | some sLang =>
    if sLang.isEmpty then []
    else ((targetLanguages r).filter (fun t => !(sLang == t))).map (fun t => (s, t))

/-- The set expected_assistants of _update_assistants_for_all_languages, as
the list of routes (speaker, target language) in loop order. -/
def expectedRoutes (r : Registry) : List (String × String) :=
  r.speakers.flatMap (routesForSpeaker r)

/-- The dictionary key "{speaker_id}:{target_language}". -/
def assistantKey (s t : String) : String :=
  s ++ ":" ++ t

/-- The expected assistant keys in loop order. -/
def expectedKeys (r : Registry) : List String :=
  (expectedRoutes r).map (fun p => assistantKey p.1 p.2)

/-- The languages wanted by enabled participants other than s, deduplicated:
the "distinct enabled target languages among other participants" of the spec,
used to bound the number of routes of speaker s. -/
def otherEnabledTargets (r : Registry) (s : String) : List String :=
  dedupKeepFirst
    ((r.participantLanguages.filter (fun p => !(p.1 == s) && enabledFor r p.1)).map Prod.snd)

/-- The turn-detection configuration built by _get_vad_config: server_vad
with prefix_padding_ms 300 and a threshold / silence_duration_ms pair chosen
by host_vad_setting. -/
structure VadConfig where
  vadType : String
  prefixPaddingMs : Nat
  threshold : ℚ
  silenceDurationMs : Nat
deriving DecidableEq, Repr

/-- _get_vad_config: "low" maps to threshold 0.75 and silence 1000 ms,
"high" to threshold 0.4 and silence 400 ms, anything else (the "medium"
default) to threshold 0.5 and silence 500 ms. -/
def getVadConfig (hostVadSetting : String) : VadConfig :=
  if hostVadSetting == "low" then ⟨"server_vad", 300, 75/100, 1000⟩
  else if hostVadSetting == "high" then ⟨"server_vad", 300, 40/100, 400⟩
  else ⟨"server_vad", 300, 50/100, 500⟩

/-- A lifecycle action issued by the manager: starting the provider session
for a key (await self._create_assistant_for_pair) or stopping one
(await assistant.aclose() after popping the key). -/
inductive PipelineAction where
  | start (key : String)
  | stop (key : String)
deriving DecidableEq, Repr

/-- Whether an action is a session start. -/
def isStart : PipelineAction → Bool
  | .start _ => true
  | .stop _ => false

/-- Whether an action is a session stop. -/
def isStop : PipelineAction → Bool
  | .start _ => false
  | .stop _ => true

/-- The creation loop of _update_assistants_for_all_languages: walk the
expected keys in order and, for each key not already in the assistants map,
start a session (configured with the current VAD config) and insert it.
Returns the updated map and the start actions in order. -/
def createPhase (vad : VadConfig) :
    List (String × VadConfig) → List String → List (String × VadConfig) × List PipelineAction
  | m, [] => (m, [])
  | m, k :: ks =>
    if (m.lookup k).isSome then createPhase vad m ks
    else
      let rest := createPhase vad (m ++ [(k, vad)]) ks
      (rest.1, PipelineAction.start k :: rest.2)

/-- The cleanup loop of _update_assistants_for_all_languages: every key of
the map not in expected_assistants is popped and its session closed. -/
def stopPhase (expected : List String) (m : List (String × VadConfig)) :
    List (String × VadConfig) × List PipelineAction :=
  (m.filter (fun p => expected.contains p.1),
   (m.filter (fun p => !(expected.contains p.1))).map (fun p => PipelineAction.stop p.1))

/-- One sequential pass of _update_assistants_for_all_languages: compute the
expected keys, run the creation loop, then the cleanup loop.  Returns the new
assistants map and the trace of start and stop actions in program order. -/
def reconcile (vad : VadConfig) (m : List (String × VadConfig)) (r : Registry) :
    List (String × VadConfig) × List PipelineAction :=
  let e := expectedKeys r
  let c := createPhase vad m e
  let s := stopPhase e c.1
  (s.1, c.2 ++ s.2)

/-- _restart_all_assistants_for_vad_change: pop and close every assistant,
then rebuild the map by a full _update_assistants_for_all_languages pass
under the new VAD setting. -/
def restartAllForVadChange (newSetting : String) (m : List (String × VadConfig))
    (r : Registry) : List (String × VadConfig) × List PipelineAction :=
  let stopsAll := m.map (fun p => PipelineAction.stop p.1)
  let res := reconcile (getVadConfig newSetting) [] r
  (res.1, stopsAll ++ res.2)

/-- Python str.lower, character by character (kernel-computable form of
String.toLower). -/
def pyLower (s : String) : String :=
  String.mk (s.data.map Char.toLower)

/-- Python str.strip: remove leading and trailing whitespace
(kernel-computable form of String.trim). -/
def pyStrip (s : String) : String :=
  String.mk (((s.data.dropWhile Char.isWhitespace).reverse.dropWhile
    Char.isWhitespace).reverse)

/-- Helper for Python str.split with no separator: collect the maximal runs
of non-whitespace characters, cur being the current run reversed. -/
def pyWordsAux (cur : List Char) : List Char → List (List Char)
  | [] => if cur.isEmpty then [] else [cur.reverse]
  | c :: cs =>
    if c.isWhitespace then
      if cur.isEmpty then pyWordsAux [] cs
      else cur.reverse :: pyWordsAux [] cs
    else pyWordsAux (c :: cur) cs

/-- Substring test, the semantics of the Python membership test
"phrase in text". -/
def containsSubstr (s pat : String) : Bool :=
  s.toList.tails.any (fun suf => pat.toList.isPrefixOf suf)

/-- The meta_phrases list of is_meta_commentary in
_create_assistant_for_pair. -/
def metaPhrases : List String :=
  ["no translation needed",
   "i\u0027ll remain silent",
   "i\u0027ll stay silent",
   "staying silent",
   "no translation",
   "same language",
   "ready to translate",
   "i\u0027m ready",
   "ready to translate when",
   "when you speak",
   "speak in another language",
   "i\u0027m listening",
   "waiting for",
   "translation service",
   "translator here",
   "i can translate",
   "already translated",
   "it\u0027s already",
   "this is already",
   "no need to translate",
   "translation not needed",
   "i will remain",
   "i will stay",
   "i\u0027ll keep silent",
   "keeping silent",
   "[silence]"]

/-- is_meta_commentary: empty text counts as meta-commentary, otherwise the
lowercased stripped text is checked for any of the meta phrases. -/
def isMetaCommentary (text : String) : Bool :=
  if text.isEmpty then true
  else
    let textLower := pyStrip (pyLower text)
    metaPhrases.any (fun phrase => containsSubstr textLower phrase)

/-- Python len(s.split()): the number of whitespace-separated words. -/
def wordCount (s : String) : Nat :=
  (pyWordsAux [] s.data).length

/-- The per-session transcription bookkeeping held in session.user_data:
last_original, current_translation and sent_final, initialised to
"", "" and False. -/
structure SessionData where
  lastOriginal : String
  currentTranslation : String
  sentFinal : Bool
deriving DecidableEq, Repr

/-- The outbound control-channel message built by _send_transcription_data.
The wall-clock timestamp field of the Python message is not modelled. -/
structure TranscriptionMessage where
  msgType : String
  text : String
  originalText : String
  language : String
  participantId : String
  targetParticipant : String
  partialFlag : Bool
  finalFlag : Bool
deriving DecidableEq, Repr

/-- _send_transcription_data: the JSON payload published to all participants,
with "final": not partial and "partial": partial, and participant_id
defaulting to "unknown" when no source speaker is known. -/
def mkTranscriptionMessage (originalText translatedText targetLanguage : String)
    (partialFlag : Bool) (sourceSpeakerId : Option String) : TranscriptionMessage :=
  { msgType := "transcription"
    text := translatedText
    originalText := originalText
    language := targetLanguage
    participantId := sourceSpeakerId.getD "unknown"
    targetParticipant := "all"
    partialFlag := partialFlag
    finalFlag := !partialFlag }

/-- The transcript events delivered to the handlers registered on an
AgentSession in _create_assistant_for_pair. -/
inductive AgentEvent where
  | userInputTranscribed (transcript : String) (isFinal : Bool)
  | agentSpeechStarted
  | agentSpeechDelta (delta : String)
  | agentSpeechCommitted (text : String)
deriving DecidableEq, Repr

/-- on_original_transcribed (user_input_transcribed): strip the transcript;
a final transcript stores it and resets sent_final and the translation
accumulator, a partial one only stores it.  No message is published. -/
def handleUserTranscribed (st : SessionData) (transcript : String) (isFinal : Bool) :
    SessionData :=
  let t := pyStrip transcript
  if t.isEmpty then st
  else if isFinal then
    { st with lastOriginal := t, sentFinal := false, currentTranslation := "" }
  else
    { st with lastOriginal := t }

/-- on_agent_speech_delta: a non-empty, non-meta delta is appended to
current_translation; once the accumulated text has at least 2 words or 15
characters and an original is known, a partial transcription is published. -/
def handleDelta (target src : String) (st : SessionData) (delta : String) :
    SessionData × List TranscriptionMessage :=
  if !delta.isEmpty && !isMetaCommentary delta then
    let st1 := { st with currentTranslation := st.currentTranslation ++ delta }
    let accumulated := st1.currentTranslation
    if wordCount accumulated ≥ 2 || accumulated.length ≥ 15 then
      if !st1.lastOriginal.isEmpty then
        (st1, [mkTranscriptionMessage st1.lastOriginal accumulated target true (some src)])
      else (st1, [])
    else (st1, [])
  else (st, [])

/-- on_agent_speech_committed: skipped when sent_final is already set; the
final text is the event text or, when empty, the accumulated translation,
stripped; empty text is dropped; very short meta-commentary (at most 15
characters and at most 3 words) is filtered with sent_final set; otherwise
sent_final is set and a final transcription is published, using the final
text itself as original when none was captured. -/
def handleCommitted (target src : String) (st : SessionData) (text : String) :
    SessionData × List TranscriptionMessage :=
  if st.sentFinal then (st, [])
  else
    let final0 := if text.isEmpty then st.currentTranslation else text
    let final := pyStrip final0
    if final.isEmpty then (st, [])
    else if isMetaCommentary final && final.length ≤ 15 && wordCount final ≤ 3 then
      ({ st with sentFinal := true }, [])
    else
      ({ st with sentFinal := true },
       [mkTranscriptionMessage
          (if st.lastOriginal.isEmpty then final else st.lastOriginal)
          final target false (some src)])

/-- Dispatch one transcript event through the handlers of
_create_assistant_for_pair; on_agent_speech_started resets the accumulator
and the sent_final flag. -/
def handleEvent (target src : String) (st : SessionData) :
    AgentEvent → SessionData × List TranscriptionMessage
  | .userInputTranscribed t f => (handleUserTranscribed st t f, [])
  | .agentSpeechStarted => ({ st with currentTranslation := "", sentFinal := false }, [])
  | .agentSpeechDelta d => handleDelta target src st d
  | .agentSpeechCommitted t => handleCommitted target src st t

/-- Run a sequence of transcript events, collecting all published
transcription messages in order. -/
def runEvents (target src : String) (st : SessionData) :
    List AgentEvent → SessionData × List TranscriptionMessage
  | [] => (st, [])
  | e :: es =>
    let r := handleEvent target src st e
    let rest := runEvents target src r.1 es
    (rest.1, r.2 ++ rest.2)

/-- One of the two concurrently scheduled reconcile tasks of the agent: the
creation loop of _update_assistants_for_all_languages compiled to its atomic
segments.  createRoute k rest is the membership test
"if assistant_key not in self.assistants"; when the key is absent the task
calls _create_assistant_for_pair, whose await session.start(...) is a
suspension point of the asyncio event loop (the session is already live),
after which insertKey k rest writes self.assistants[assistant_key] =
session. -/
inductive TaskProg where
  | done
  | createRoute (key : String) (rest : TaskProg)
  | insertKey (key : String) (rest : TaskProg)
deriving DecidableEq, Repr

/-- The creation loop for the expected keys of a registry snapshot, as a task
program. -/
def reconcileProg (r : Registry) : TaskProg :=
  (expectedKeys r).foldr (fun k p => TaskProg.createRoute k p) TaskProg.done

/-- Shared state of the event loop with two pending reconcile tasks
(scheduled fire-and-forget via asyncio.create_task): the assistants map keys,
the keys of provider sessions that have been started and not closed (live,
i.e. Starting or Active), and the two task continuations. -/
structure ConcState where
  assistants : List String
  live : List String
  task1 : TaskProg
  task2 : TaskProg
deriving DecidableEq, Repr

/-- Interleaved execution of the two reconcile tasks on the asyncio event
loop.  A task at a createRoute step atomically tests map membership; when the
key is absent it starts the provider session (the session becomes live) and
suspends at the await inside _create_assistant_for_pair, leaving the map
write pending; the later insertKey step performs the map write.  Steps of the
two tasks interleave arbitrarily. -/
inductive ConcStep : ConcState → ConcState → Prop
  | check1Absent (a live : List String) (k : String) (r t2 : TaskProg) :
      a.contains k = false →
      ConcStep ⟨a, live, .createRoute k r, t2⟩ ⟨a, live ++ [k], .insertKey k r, t2⟩
  | check1Present (a live : List String) (k : String) (r t2 : TaskProg) :
      a.contains k = true →
      ConcStep ⟨a, live, .createRoute k r, t2⟩ ⟨a, live, r, t2⟩
  | insert1 (a live : List String) (k : String) (r t2 : TaskProg) :
      ConcStep ⟨a, live, .insertKey k r, t2⟩ ⟨a ++ [k], live, r, t2⟩
  | check2Absent (a live : List String) (k : String) (t1 : TaskProg) (r : TaskProg) :
      a.contains k = false →
      ConcStep ⟨a, live, t1, .createRoute k r⟩ ⟨a, live ++ [k], t1, .insertKey k r⟩
  | check2Present (a live : List String) (k : String) (t1 : TaskProg) (r : TaskProg) :
      a.contains k = true →
      ConcStep ⟨a, live, t1, .createRoute k r⟩ ⟨a, live, t1, r⟩
  | insert2 (a live : List String) (k : String) (t1 : TaskProg) (r : TaskProg) :
      ConcStep ⟨a, live, t1, .insertKey k r⟩ ⟨a ++ [k], live, t1, r⟩

/-- Reachability of the event loop state by interleaved task steps. -/
def ConcReachable : ConcState → ConcState → Prop :=
  Relation.ReflTransGen ConcStep

/-- Scenario A registry: participant X has published audio but no language
preference, Y and Z both want Spanish with translation enabled. -/
def scenarioARegistry : Registry :=
  ⟨["X"], [("Y", "es"), ("Z", "es")], [("Y", true), ("Z", true)]⟩

/-- Scenario A with the speaker preference known: as scenarioARegistry but X
has set language en (translation not enabled for X). -/
def scenarioAKnownPrefRegistry : Registry :=
  ⟨["X"], [("X", "en"), ("Y", "es"), ("Z", "es")], [("Y", true), ("Z", true)]⟩

/-- Registry after listener Y changed language from es to fr while speaker X
(language en) keeps speaking; the assistants map still holds the stale
pipeline X:es from before the change. -/
def prefChangeRegistry : Registry :=
  ⟨["X"], [("X", "en"), ("Y", "fr")], [("X", true), ("Y", true)]⟩

/-- The assistants map before the preference change of prefChangeRegistry:
one live pipeline X:es. -/
def prefChangeOldMap : List (String × VadConfig) :=
  [("X:es", getVadConfig "medium")]

/-- Registry with one speaker X (language en) and one enabled Spanish
listener Y: the required set is exactly the route X:es. -/
def oneRouteRegistry : Registry :=
  ⟨["X"], [("X", "en"), ("Y", "es")], [("X", true), ("Y", true)]⟩

/-- Registry whose required set has three routes: speakers A and B want en,
speaker C wants es, all enabled, giving pipelines A:es, B:es and C:en. -/
def threePipelineRegistry : Registry :=
  ⟨["A", "B", "C"], [("A", "en"), ("B", "en"), ("C", "es")],
   [("A", true), ("B", true), ("C", true)]⟩

/-- The assistants map matching threePipelineRegistry under the default
medium VAD setting. -/
def threePipelineMap : List (String × VadConfig) :=
  [("A:es", getVadConfig "medium"), ("B:es", getVadConfig "medium"),
   ("C:en", getVadConfig "medium")]

/-- Registry with speakers A (en) and B (es) and a second Spanish listener C
who is not a speaker; es is wanted by two participants but the required set
still has a single route per speaker and language. -/
def dedupDemoRegistry : Registry :=
  ⟨["A", "B"], [("A", "en"), ("B", "es"), ("C", "es")],
   [("A", true), ("B", true), ("C", true)]⟩

/-- Event loop state with two freshly scheduled reconcile tasks for
oneRouteRegistry: empty assistants map, no live session. -/
def c1InitState : ConcState :=
  ⟨[], [], reconcileProg oneRouteRegistry, reconcileProg oneRouteRegistry⟩

/-- State after task 1 passed the membership test for X:es and suspended at
the await inside _create_assistant_for_pair: the session is live but the map
is still empty. -/
def c1MidState : ConcState :=
  ⟨[], ["X:es"], .insertKey "X:es" .done, reconcileProg oneRouteRegistry⟩

/-- State after task 2 also passed the membership test for X:es (the map is
still empty, so the test succeeds again): two provider sessions for the same
route are now live simultaneously. -/
def c1BadState : ConcState :=
  ⟨[], ["X:es", "X:es"], .insertKey "X:es" .done, .insertKey "X:es" .done⟩

/-- A partial transcript event followed by a final event carrying identical
text, for one speech turn of the route (X, es): the original is transcribed,
the agent turn starts, a delta accumulates the full translation, and the
commit carries the same text. -/
def identicalPartialFinalEvents : List AgentEvent :=
  [.userInputTranscribed "hello friend" true,
   .agentSpeechStarted,
   .agentSpeechDelta "hola amigo",
   .agentSpeechCommitted "hola amigo"]

/-- The initial session.user_data of a freshly created assistant. -/
def initialSessionData : SessionData :=
  ⟨"", "", false⟩

theorem mem_dedupKeepFirstAux (l : List String) (seen : List String) (a : String) :
    a ∈ dedupKeepFirstAux seen l ↔ a ∈ l ∧ a ∉ seen := by
  induction l generalizing seen with
  | nil => simp [dedupKeepFirstAux]
  | cons x xs ih =>
    simp only [dedupKeepFirstAux]
    by_cases hx : seen.contains x = true
    · rw [if_pos hx, ih]
      rw [List.elem_iff] at hx
      simp only [List.mem_cons]
      constructor
      · rintro ⟨h1, h2⟩; exact ⟨Or.inr h1, h2⟩
      · rintro ⟨h1, h2⟩
        rcases h1 with h1 | h1
        · exact absurd (h1 ▸ hx) h2
        · exact ⟨h1, h2⟩
    · rw [if_neg hx]
      rw [List.elem_iff] at hx
      simp only [List.mem_cons, ih, List.mem_append, List.mem_singleton]
      constructor
      · rintro (h | ⟨h1, h2⟩)
        · exact ⟨Or.inl h, fun hs => hx (h ▸ hs)⟩
        · exact ⟨Or.inr h1, fun hs => h2 (Or.inl hs)⟩
      · rintro ⟨h1 | h1, h2⟩
        · exact Or.inl h1
        · by_cases hax : a = x
          · exact Or.inl hax
          · exact Or.inr ⟨h1, fun hs => by
              rcases hs with hs | hs; exact h2 hs; exact hax (by simpa using hs)⟩

theorem nodup_dedupKeepFirstAux (l : List String) (seen : List String) :
    (dedupKeepFirstAux seen l).Nodup := by
  induction l generalizing seen with
  | nil => simp [dedupKeepFirstAux]
  | cons x xs ih =>
    simp only [dedupKeepFirstAux]
    by_cases hx : seen.contains x = true
    · rw [if_pos hx]; exact ih seen
    · rw [if_neg hx]
      refine List.nodup_cons.mpr ⟨?_, ih (seen ++ [x])⟩
      intro hmem
      rw [mem_dedupKeepFirstAux] at hmem
      exact hmem.2 (by simp)

theorem mem_dedupKeepFirst (l : List String) (a : String) :
    a ∈ dedupKeepFirst l ↔ a ∈ l := by
  rw [dedupKeepFirst, mem_dedupKeepFirstAux]; simp

theorem nodup_dedupKeepFirst (l : List String) : (dedupKeepFirst l).Nodup :=
  nodup_dedupKeepFirstAux l []

theorem lookup_mono_append {β : Type} (l₁ l₂ : List (String × β)) (a : String)
    (h : l₁.lookup a = none) : (l₁ ++ l₂).lookup a = l₂.lookup a := by
  induction l₁ with
  | nil => simp
  | cons p ps ih =>
    cases p with
    | mk c d =>
      by_cases hac : (a == c) = true
      · simp [List.lookup, hac] at h
      · simp only [List.cons_append, List.lookup, hac] at h ⊢
        exact ih h

theorem lookup_eq_some_of_mem {β : Type} (l : List (String × β)) (a : String) (b : β)
    (hnd : (l.map Prod.fst).Nodup) (hmem : (a, b) ∈ l) : l.lookup a = some b := by
  induction l with
  | nil => simp at hmem
  | cons p ps ih =>
    cases p with
    | mk c d =>
      rw [List.mem_cons] at hmem
      rcases hmem with heq | hmem
      · have h1 : a = c := congrArg Prod.fst heq
        have h2 : b = d := congrArg Prod.snd heq
        subst h1; subst h2
        simp [List.lookup]
      · have hne : a ≠ c := by
          intro hrfl
          subst hrfl
          have : a ∈ ps.map Prod.fst := List.mem_map.mpr ⟨(a, b), hmem, rfl⟩
          simp only [List.map_cons, List.nodup_cons] at hnd
          exact hnd.1 this
        have hbeq : (a == c) = false := by
          simpa using hne
        simp only [List.lookup, hbeq]
        have hnd2 : (ps.map Prod.fst).Nodup := by
          simp only [List.map_cons, List.nodup_cons] at hnd
          exact hnd.2
        exact ih hnd2 hmem

theorem mem_keys_iff_lookup_isSome {β : Type} (l : List (String × β)) (a : String) :
    a ∈ l.map Prod.fst ↔ (l.lookup a).isSome := by
  induction l with
  | nil => simp
  | cons p ps ih =>
    cases p with
    | mk c d =>
      by_cases hac : (a == c) = true
      · have : a = c := by simpa using hac
        subst this
        simp only [List.map_cons, List.mem_cons, List.lookup, beq_self_eq_true, if_true]
        simp
      · have hne : a ≠ c := by simpa using hac
        simp only [List.map_cons, List.mem_cons, List.lookup, hac]
        simp [hne, ih]

theorem nodup_targetLanguages (r : Registry) : (targetLanguages r).Nodup :=
  nodup_dedupKeepFirst _

theorem mem_targetLanguages (r : Registry) (t : String) :
    t ∈ targetLanguages r ↔
      ∃ p ∈ r.participantLanguages, enabledFor r p.1 = true ∧ p.2 = t := by
  rw [targetLanguages, mem_dedupKeepFirst]
  simp only [List.mem_map, List.mem_filter]
  tauto

theorem fst_of_mem_routesForSpeaker (r : Registry) (s : String) (x : String × String)
    (hx : x ∈ routesForSpeaker r s) : x.1 = s := by
  cases h : r.participantLanguages.lookup s with
  | none => simp [routesForSpeaker, h] at hx
  | some sLang =>
    simp only [routesForSpeaker, h] at hx
    by_cases he : sLang.isEmpty = true
    · rw [if_pos he] at hx; simp at hx
    · rw [if_neg he] at hx
      rcases List.mem_map.mp hx with ⟨t, _, rfl⟩
      rfl

theorem snd_mem_of_mem_routesForSpeaker (r : Registry) (s : String) (x : String × String)
    (hx : x ∈ routesForSpeaker r s) :
    x.2 ∈ targetLanguages r ∧ r.participantLanguages.lookup s ≠ some x.2 := by
  cases h : r.participantLanguages.lookup s with
  | none => simp [routesForSpeaker, h] at hx
  | some sLang =>
    simp only [routesForSpeaker, h] at hx
    by_cases he : sLang.isEmpty = true
    · rw [if_pos he] at hx; simp at hx
    · rw [if_neg he] at hx
      rcases List.mem_map.mp hx with ⟨t, ht, rfl⟩
      have hmem := List.mem_filter.mp ht
      refine ⟨hmem.1, ?_⟩
      intro hcon
      have hst : sLang = t := Option.some.inj hcon
      have hne : sLang ≠ t := by simpa using hmem.2
      exact hne hst

theorem nodup_routesForSpeaker (r : Registry) (s : String) :
    (routesForSpeaker r s).Nodup := by
  cases h : r.participantLanguages.lookup s with
  | none => simp [routesForSpeaker, h]
  | some sLang =>
    simp only [routesForSpeaker, h]
    by_cases he : sLang.isEmpty = true
    · simp [he]
    · rw [if_neg he]
      refine List.Nodup.map ?_ (List.Nodup.filter _ (nodup_targetLanguages r))
      intro a b hab
      simpa using congrArg Prod.snd hab

/-- C10: every outbound transcription message satisfies final equal to not
partial: for every call of the transcription broadcast operation
_send_transcription_data with any partial flag, the published message has a
final field that is the negation of its partial field, so no message is ever
marked both partial and final, or neither. -/
theorem c10_final_negates_partialFlag (originalText translatedText targetLanguage : String)
    (partialFlag : Bool) (sourceSpeakerId : Option String) :
    (mkTranscriptionMessage originalText translatedText targetLanguage partialFlag
        sourceSpeakerId).finalFlag
      = !(mkTranscriptionMessage originalText translatedText targetLanguage partialFlag
        sourceSpeakerId).partialFlag := rfl

/-- C3: for every speaker whose own target language is L, no route (S, L) is
ever included in the required set: the demand calculation of
_update_assistants_for_all_languages skips every pair with
speaker_language == target_language. -/
theorem c3_same_language_skip (r : Registry) (s L : String)
    (h : r.participantLanguages.lookup s = some L) :
    (s, L) ∉ expectedRoutes r := by
  intro hmem
  rcases List.mem_flatMap.mp hmem with ⟨s1, _, hroute⟩
  have hfst : (s, L).1 = s1 := fst_of_mem_routesForSpeaker r s1 _ hroute
  have hs1 : s1 = s := hfst.symm
  rw [hs1] at hroute
  exact (snd_mem_of_mem_routesForSpeaker r s (s, L) hroute).2 h

/-- Witness for c3_same_language_skip: in dedupDemoRegistry speaker A has
language en, and the route (A, en) is not among the required routes. -/
theorem c3_same_language_skip_witness :
    dedupDemoRegistry.participantLanguages.lookup "A" = some "en" ∧
      ("A", "en") ∉ expectedRoutes dedupDemoRegistry :=
  ⟨rfl, c3_same_language_skip dedupDemoRegistry "A" "en" rfl⟩

/-- C8: for every active speaker whose language preference is not yet known,
no route for that speaker is included in the required set: the loop of
_update_assistants_for_all_languages skips speakers for which
participant_languages has no entry. -/
theorem c8_no_preference_excluded (r : Registry) (s : String)
    (h : r.participantLanguages.lookup s = none) :
    ∀ t, (s, t) ∉ expectedRoutes r := by
  intro t hmem
  rcases List.mem_flatMap.mp hmem with ⟨s1, _, hroute⟩
  have hfst : (s, t).1 = s1 := fst_of_mem_routesForSpeaker r s1 _ hroute
  have hs1 : s1 = s := hfst.symm
  rw [hs1] at hroute
  simp only [routesForSpeaker, h] at hroute
  simp at hroute

/-- Witness for c8_no_preference_excluded: in scenarioARegistry speaker X has
no language preference and the route (X, es) is not required. -/
theorem c8_no_preference_excluded_witness :
    scenarioARegistry.participantLanguages.lookup "X" = none ∧
      ("X", "es") ∉ expectedRoutes scenarioARegistry :=
  ⟨rfl, c8_no_preference_excluded scenarioARegistry "X" rfl "es"⟩

/-- C7 counterexample: with participants X (no preference set), Y and Z both
wanting es, and X an active speaker, the code creates no pipeline at all
(speakers without a language preference are skipped), refuting the claim that
exactly one pipeline (X, es) is created. -/
theorem c7_scenario_a_counterexample :
    expectedRoutes scenarioARegistry = [] ∧
      reconcile (getVadConfig "medium") [] scenarioARegistry = ([], []) :=
  ⟨rfl, rfl⟩

/-- C7 amended: once the preference of speaker X is known (X set language en,
different from es), the same scenario produces exactly one required route
(X, es), and a reconcile pass from an empty map creates exactly the one
pipeline X:es shared by the listeners Y and Z. -/
theorem c7_amended_one_pipeline :
    expectedRoutes scenarioAKnownPrefRegistry = [("X", "es")] ∧
      (reconcile (getVadConfig "medium") [] scenarioAKnownPrefRegistry).1
        = [("X:es", getVadConfig "medium")] ∧
      (reconcile (getVadConfig "medium") [] scenarioAKnownPrefRegistry).2
        = [PipelineAction.start "X:es"] :=
  ⟨rfl, rfl, rfl⟩

/-- C5 counterexample: after listener Y changes language from es to fr while
X speaks, the reconcile pass first starts the replacement X:fr and only then
stops the stale X:es (the action trace is start before stop), and after the
creation loop the assistants map momentarily holds both X:es and X:fr, so
the stale and the replacement pipeline are live at the same time. -/
theorem c5_start_before_stop_counterexample :
    (reconcile (getVadConfig "medium") prefChangeOldMap prefChangeRegistry).2
        = [PipelineAction.start "X:fr", PipelineAction.stop "X:es"] ∧
      (createPhase (getVadConfig "medium") prefChangeOldMap
          (expectedKeys prefChangeRegistry)).1.map Prod.fst = ["X:es", "X:fr"] :=
  ⟨rfl, rfl⟩

/-- C9 counterexample: a partial transcript event whose accumulated text
equals the text of the subsequent final event results in two forwarded
messages carrying the same text (one partial, one final): the broadcaster
does not deduplicate the identical partial/final pair. -/
theorem c9_partial_final_double_send :
    (runEvents "es" "X" initialSessionData identicalPartialFinalEvents).2.map
        (fun msg => (msg.text, msg.partialFlag, msg.finalFlag))
      = [("hola amigo", true, false), ("hola amigo", false, true)] := by
  decide

/-- C9 amended: the broadcaster deduplicates only final events within a
speech turn, via the sent_final flag: once a final transcription has been
forwarded for the route, a further final transcript event in the same turn
forwards nothing (and any event that does forward a message leaves the flag
set); an identical partial/final pair is still forwarded twice. -/
theorem c9_amended_final_dedup (target src : String) (st : SessionData) (text : String) :
    (st.sentFinal = true → handleCommitted target src st text = (st, [])) ∧
    ((handleCommitted target src st text).2 ≠ [] →
      (handleCommitted target src st text).1.sentFinal = true) := by
  constructor
  · intro h
    simp [handleCommitted, h]
  · intro hne
    by_cases h1 : st.sentFinal = true
    · simp [handleCommitted, h1] at hne
    · simp only [handleCommitted, h1, if_false, Bool.false_eq_true, ite_false] at hne ⊢
      by_cases h2 : (pyStrip (if text.isEmpty then st.currentTranslation else text)).isEmpty = true
      · simp [h2] at hne
      · simp only [h2, Bool.false_eq_true, ite_false] at hne ⊢
        by_cases h3 :
            (isMetaCommentary (pyStrip (if text.isEmpty then st.currentTranslation else text))
              && decide ((pyStrip (if text.isEmpty then st.currentTranslation else text)).length ≤ 15)
              && decide (wordCount (pyStrip (if text.isEmpty then st.currentTranslation else text)) ≤ 3)) = true
        · simp [h3]
        · simp [h3]

/-- Witness for c9_amended_final_dedup: with sent_final already set, a final
transcript event forwards no message and leaves the state unchanged. -/
theorem c9_amended_final_dedup_witness :
    (SessionData.mk "hi" "hola" true).sentFinal = true ∧
      handleCommitted "es" "X" (SessionData.mk "hi" "hola" true) "adios"
        = (SessionData.mk "hi" "hola" true, []) :=
  ⟨rfl, (c9_amended_final_dedup "es" "X" (SessionData.mk "hi" "hola" true) "adios").1 rfl⟩

theorem createPhase_actions_all_start (vad : VadConfig) (m : List (String × VadConfig))
    (e : List String) : ∀ a ∈ (createPhase vad m e).2, isStart a = true := by
  induction e generalizing m with
  | nil => simp [createPhase]
  | cons k ks ih =>
    simp only [createPhase]
    by_cases h : (m.lookup k).isSome = true
    · rw [if_pos h]; exact ih m
    · rw [if_neg h]
      intro a ha
      rcases List.mem_cons.mp ha with rfl | ha
      · rfl
      · exact ih _ a ha

theorem isStop_eq_not_isStart (a : PipelineAction) : isStop a = !(isStart a) := by
  cases a <;> rfl

/-- C5 amended: on a language preference change, a reconcile pass of
_update_assistants_for_all_languages starts every replacement pipeline before
stopping any stale one: every reconcile trace is its start actions followed
by its stop actions (so between the creation loop and the cleanup loop both
the stale and the replacement pipeline for the listener are live), and once
the pass completes only required pipelines remain in the map. -/
theorem c5_amended_starts_precede_stops (vad : VadConfig) (m : List (String × VadConfig))
    (r : Registry) :
    (reconcile vad m r).2
        = ((reconcile vad m r).2.filter isStart) ++ ((reconcile vad m r).2.filter isStop) ∧
      ∀ p ∈ (reconcile vad m r).1, (expectedKeys r).contains p.1 = true := by
  constructor
  · simp only [reconcile]
    rw [List.filter_append, List.filter_append]
    have hstarts : ∀ a ∈ (createPhase vad m (expectedKeys r)).2, isStart a = true :=
      createPhase_actions_all_start vad m (expectedKeys r)
    have hstops : ∀ a ∈ (stopPhase (expectedKeys r)
        (createPhase vad m (expectedKeys r)).1).2, isStop a = true := by
      intro a ha
      rcases List.mem_map.mp ha with ⟨p, _, rfl⟩
      rfl
    rw [List.filter_eq_self.mpr hstarts]
    rw [List.filter_eq_nil_iff.mpr (fun a ha => by
      have := hstops a ha
      rw [isStop_eq_not_isStart] at this
      simp [Bool.not_eq_true] at this  -- isStart a = false, so ¬ (isStart a = true)
      simp [this])]
    rw [List.filter_eq_nil_iff.mpr (fun a ha => by
      have := hstarts a ha
      rw [isStop_eq_not_isStart]
      simp [this])]
    rw [List.filter_eq_self.mpr hstops]
    simp
  · intro p hp
    simp only [reconcile, stopPhase] at hp
    exact (List.mem_filter.mp hp).2

theorem createPhase_eq_append (vad : VadConfig) (m : List (String × VadConfig))
    (e : List String) : ∃ tail, (createPhase vad m e).1 = m ++ tail := by
  induction e generalizing m with
  | nil => exact ⟨[], by simp [createPhase]⟩
  | cons k ks ih =>
    simp only [createPhase]
    by_cases h : (m.lookup k).isSome = true
    · rw [if_pos h]; exact ih m
    · rw [if_neg h]
      rcases ih (m ++ [(k, vad)]) with ⟨tail, htail⟩
      exact ⟨(k, vad) :: tail, by simp [htail]⟩

theorem mem_keys_createPhase (vad : VadConfig) (m : List (String × VadConfig))
    (e : List String) (k : String) (hk : k ∈ e) :
    k ∈ (createPhase vad m e).1.map Prod.fst := by
  induction e generalizing m with
  | nil => simp at hk
  | cons k1 ks ih =>
    simp only [createPhase]
    by_cases h : (m.lookup k1).isSome = true
    · rw [if_pos h]
      rcases List.mem_cons.mp hk with rfl | hk2
      · have hm : k ∈ m.map Prod.fst := (mem_keys_iff_lookup_isSome m k).mpr h
        rcases createPhase_eq_append vad m ks with ⟨tail, htail⟩
        rw [htail, List.map_append]
        exact List.mem_append_left _ hm
      · exact ih m hk2
    · rw [if_neg h]
      rcases List.mem_cons.mp hk with rfl | hk2
      · rcases createPhase_eq_append vad (m ++ [(k, vad)]) ks with ⟨tail, htail⟩
        simp only [htail, List.map_append]
        exact List.mem_append_left _ (by simp)
      · exact ih (m ++ [(k1, vad)]) hk2

theorem createPhase_of_all_present (vad : VadConfig) (m : List (String × VadConfig))
    (e : List String) (h : ∀ k ∈ e, (m.lookup k).isSome = true) :
    createPhase vad m e = (m, []) := by
  induction e with
  | nil => rfl
  | cons k ks ih =>
    simp only [createPhase, if_pos (h k (List.mem_cons_self k ks))]
    exact ih (fun k1 hk1 => h k1 (List.mem_cons_of_mem k hk1))

/-- C4: reconciliation is idempotent: a second
_update_assistants_for_all_languages pass over the unchanged registry starts
no pipeline, stops no pipeline (empty action trace) and leaves the
assistants map exactly as the first pass left it. -/
theorem c4_reconcile_idempotent (vad : VadConfig) (m : List (String × VadConfig))
    (r : Registry) :
    reconcile vad (reconcile vad m r).1 r = ((reconcile vad m r).1, []) := by
  have hm1 : (reconcile vad m r).1
      = ((createPhase vad m (expectedKeys r)).1.filter
          (fun p => (expectedKeys r).contains p.1)) := rfl
  have hall : ∀ k ∈ expectedKeys r, (((reconcile vad m r).1).lookup k).isSome = true := by
    intro k hk
    have hkeys := mem_keys_createPhase vad m (expectedKeys r) k hk
    rcases List.mem_map.mp hkeys with ⟨p, hp, hpk⟩
    have hpm1 : p ∈ (reconcile vad m r).1 := by
      rw [hm1]
      refine List.mem_filter.mpr ⟨hp, ?_⟩
      rw [hpk]
      exact List.elem_iff.mpr hk
    refine (mem_keys_iff_lookup_isSome _ k).mp ?_
    exact List.mem_map.mpr ⟨p, hpm1, hpk⟩
  have h2 : createPhase vad (reconcile vad m r).1 (expectedKeys r)
      = ((reconcile vad m r).1, []) :=
    createPhase_of_all_present vad _ _ hall
  have h3 : ∀ p ∈ (reconcile vad m r).1, (expectedKeys r).contains p.1 = true := by
    intro p hp
    rw [hm1] at hp
    exact (List.mem_filter.mp hp).2
  show (let e := expectedKeys r
        let c := createPhase vad (reconcile vad m r).1 e
        let s := stopPhase e c.1
        (s.1, c.2 ++ s.2)) = ((reconcile vad m r).1, [])
  simp only [h2, stopPhase]
  rw [List.filter_eq_self.mpr h3]
  rw [List.filter_eq_nil_iff.mpr (fun p hp => by simp only [h3 p hp]; simp)]
  simp

theorem createPhase_fresh (vad : VadConfig) (m : List (String × VadConfig))
    (e : List String) (h : ∀ k ∈ e, m.lookup k = none) (hn : e.Nodup) :
    createPhase vad m e
      = (m ++ e.map (fun k => (k, vad)), e.map PipelineAction.start) := by
  induction e generalizing m with
  | nil => simp [createPhase]
  | cons k ks ih =>
    have hk : m.lookup k = none := h k (List.mem_cons_self k ks)
    have hnone : ((m.lookup k).isSome = true) = False := by simp [hk]
    simp only [createPhase, hnone, if_false]
    have hrest : ∀ k1 ∈ ks, (m ++ [(k, vad)]).lookup k1 = none := by
      intro k1 hk1
      rw [lookup_mono_append m [(k, vad)] k1 (h k1 (List.mem_cons_of_mem k hk1))]
      have hne : k1 ≠ k := by
        intro heq
        exact (List.nodup_cons.mp hn).1 (heq ▸ hk1)
      have hbeq : (k1 == k) = false := by simpa using hne
      simp [List.lookup, hbeq]
    rw [ih (m ++ [(k, vad)]) hrest (List.nodup_cons.mp hn).2]
    simp

/-- C6: when the host VAD sensitivity setting changes while pipelines are
active, _restart_all_assistants_for_vad_change stops every one of the N
assistants and recreates exactly N assistants for the same routes, each
configured with the turn-detection profile computed from the new setting:
provided the map matched the registry (one entry per expected key, no
duplicate expected keys), the trace contains N stops and N starts, the new
map has the same keys, and every new entry carries getVadConfig of the new
setting. -/
theorem c6_vad_restart (v : String) (m : List (String × VadConfig)) (r : Registry)
    (h1 : m.map Prod.fst = expectedKeys r) (h2 : (expectedKeys r).Nodup) :
    ((restartAllForVadChange v m r).2.filter isStop).length = m.length ∧
      ((restartAllForVadChange v m r).2.filter isStart).length = m.length ∧
      (restartAllForVadChange v m r).1.map Prod.fst = m.map Prod.fst ∧
      ∀ p ∈ (restartAllForVadChange v m r).1, p.2 = getVadConfig v := by
  have hfresh : ∀ k ∈ expectedKeys r, ([] : List (String × VadConfig)).lookup k = none := by
    simp [List.lookup]
  have hc := createPhase_fresh (getVadConfig v) [] (expectedKeys r) hfresh h2
  rw [List.nil_append] at hc
  have hself : ∀ p ∈ (expectedKeys r).map (fun k => (k, getVadConfig v)),
      (expectedKeys r).contains p.1 = true := by
    intro p hp
    rcases List.mem_map.mp hp with ⟨k, hk, rfl⟩
    exact List.elem_iff.mpr hk
  have hrec1 : (reconcile (getVadConfig v) [] r).1
      = (expectedKeys r).map (fun k => (k, getVadConfig v)) := by
    show (stopPhase (expectedKeys r)
        (createPhase (getVadConfig v) [] (expectedKeys r)).1).1 = _
    rw [hc]
    exact List.filter_eq_self.mpr hself
  have hrec2 : (reconcile (getVadConfig v) [] r).2
      = (expectedKeys r).map PipelineAction.start := by
    show (createPhase (getVadConfig v) [] (expectedKeys r)).2
        ++ (stopPhase (expectedKeys r)
            (createPhase (getVadConfig v) [] (expectedKeys r)).1).2 = _
    rw [hc]
    simp only [stopPhase]
    rw [List.filter_eq_nil_iff.mpr (fun p hp => by simp only [hself p hp]; simp)]
    simp
  have hlen : (expectedKeys r).length = m.length := by
    rw [← h1, List.length_map]
  have htrace : (restartAllForVadChange v m r).2
      = m.map (fun p => PipelineAction.stop p.1)
        ++ (expectedKeys r).map PipelineAction.start := by
    show m.map (fun p => PipelineAction.stop p.1) ++ (reconcile (getVadConfig v) [] r).2 = _
    rw [hrec2]
  have hmap1 : (restartAllForVadChange v m r).1
      = (expectedKeys r).map (fun k => (k, getVadConfig v)) := by
    show (reconcile (getVadConfig v) [] r).1 = _
    exact hrec1
  refine ⟨?_, ?_, ?_, ?_⟩
  · rw [htrace, List.filter_append]
    rw [List.filter_eq_self.mpr (fun a ha => by
      rcases List.mem_map.mp ha with ⟨p, _, rfl⟩; rfl)]
    rw [List.filter_eq_nil_iff.mpr (fun a ha => by
      rcases List.mem_map.mp ha with ⟨k, _, rfl⟩; simp [isStop])]
    simp
  · rw [htrace, List.filter_append]
    rw [List.filter_eq_nil_iff.mpr (fun a ha => by
      rcases List.mem_map.mp ha with ⟨p, _, rfl⟩; simp [isStart])]
    rw [List.filter_eq_self.mpr (fun a ha => by
      rcases List.mem_map.mp ha with ⟨k, _, rfl⟩; rfl)]
    simp [hlen]
  · rw [hmap1, ← h1]
    simp
  · intro p hp
    rw [hmap1] at hp
    rcases List.mem_map.mp hp with ⟨k, _, rfl⟩
    rfl

/-- Witness for c6_vad_restart: threePipelineMap holds the three pipelines of
threePipelineRegistry under the medium setting; changing the setting to high
stops all three and restarts three with the high profile. -/
theorem c6_vad_restart_witness :
    threePipelineMap.map Prod.fst = expectedKeys threePipelineRegistry ∧
      ((restartAllForVadChange "high" threePipelineMap threePipelineRegistry).2.filter
          isStop).length = threePipelineMap.length ∧
      ((restartAllForVadChange "high" threePipelineMap threePipelineRegistry).2.filter
          isStart).length = threePipelineMap.length ∧
      (restartAllForVadChange "high" threePipelineMap threePipelineRegistry).1.map Prod.fst
        = threePipelineMap.map Prod.fst ∧
      ("A:es", getVadConfig "high").2 = getVadConfig "high" :=
  ⟨rfl,
   (c6_vad_restart "high" threePipelineMap threePipelineRegistry rfl (by decide)).1,
   (c6_vad_restart "high" threePipelineMap threePipelineRegistry rfl (by decide)).2.1,
   (c6_vad_restart "high" threePipelineMap threePipelineRegistry rfl (by decide)).2.2.1,
   (c6_vad_restart "high" threePipelineMap threePipelineRegistry rfl (by decide)).2.2.2
     ("A:es", getVadConfig "high")
     (by
       show ("A:es", getVadConfig "high") ∈
         [("A:es", getVadConfig "high"), ("B:es", getVadConfig "high"),
          ("C:en", getVadConfig "high")]
       simp)⟩

theorem nodup_expectedRoutes (r : Registry) (hs : r.speakers.Nodup) :
    (expectedRoutes r).Nodup := by
  rw [expectedRoutes, List.nodup_flatMap]
  refine ⟨fun s _ => nodup_routesForSpeaker r s, ?_⟩
  refine hs.imp ?_
  intro a b hab x hxa hxb
  have h1 : x.1 = a := fst_of_mem_routesForSpeaker r a x hxa
  have h2 : x.1 = b := fst_of_mem_routesForSpeaker r b x hxb
  exact hab (h1 ▸ h2)

theorem filter_fst_flatMap_length (r : Registry) (l : List String) (hl : l.Nodup)
    (s : String) :
    ((l.flatMap (routesForSpeaker r)).filter (fun p => p.1 == s)).length
      ≤ (routesForSpeaker r s).length := by
  induction l with
  | nil => simp
  | cons a l ih =>
    have hnd := List.nodup_cons.mp hl
    rw [List.flatMap_cons, List.filter_append, List.length_append]
    by_cases has : a = s
    · subst has
      have hrest : ((l.flatMap (routesForSpeaker r)).filter (fun p => p.1 == a)).length = 0 := by
        rw [List.length_eq_zero]
        refine List.filter_eq_nil_iff.mpr ?_
        intro x hx
        rcases List.mem_flatMap.mp hx with ⟨b, hb, hxb⟩
        have hfst : x.1 = b := fst_of_mem_routesForSpeaker r b x hxb
        have : x.1 ≠ a := by
          rw [hfst]
          intro heq
          exact hnd.1 (heq ▸ hb)
        simpa using this
      rw [hrest]
      simpa using List.length_filter_le _ _
    · have hhead : ((routesForSpeaker r a).filter (fun p => p.1 == s)).length = 0 := by
        rw [List.length_eq_zero]
        refine List.filter_eq_nil_iff.mpr ?_
        intro x hx
        have hfst : x.1 = a := fst_of_mem_routesForSpeaker r a x hx
        simp [hfst, has]
      rw [hhead]
      simpa using ih hnd.2

theorem routesForSpeaker_length_le (r : Registry) (s : String)
    (hk : (r.participantLanguages.map Prod.fst).Nodup) :
    (routesForSpeaker r s).length ≤ (otherEnabledTargets r s).length := by
  cases h : r.participantLanguages.lookup s with
  | none => simp [routesForSpeaker, h]
  | some sLang =>
    simp only [routesForSpeaker, h]
    by_cases he : sLang.isEmpty = true
    · simp [he]
    · rw [if_neg he, List.length_map]
      have hnd : ((targetLanguages r).filter (fun t => !(sLang == t))).Nodup :=
        List.Nodup.filter _ (nodup_targetLanguages r)
      have hsub : (targetLanguages r).filter (fun t => !(sLang == t))
          ⊆ otherEnabledTargets r s := by
        intro t ht
        have hmem := List.mem_filter.mp ht
        have hne : sLang ≠ t := by simpa using hmem.2
        rcases (mem_targetLanguages r t).mp hmem.1 with ⟨p, hp, hen, hpt⟩
        have hps : p.1 ≠ s := by
          intro heq
          have hpair : (s, t) ∈ r.participantLanguages := by
            have : p = (s, t) := by
              cases p
              simp_all
            exact this ▸ hp
          have := lookup_eq_some_of_mem r.participantLanguages s t hk hpair
          rw [h] at this
          exact hne (Option.some.inj this)
        rw [otherEnabledTargets, mem_dedupKeepFirst]
        refine List.mem_map.mpr ⟨p, ?_, hpt⟩
        refine List.mem_filter.mpr ⟨hp, ?_⟩
        simp [hps, hen]
      exact (hnd.subperm hsub).length_le

/-- C2: for every registry snapshot, reconciliation produces exactly one
route per (speaker, target language) pair (the required set has no duplicate
route), and the number of routes of a given speaker never exceeds the number
of distinct enabled target languages among the other participants, no matter
how many participants share a target language. -/
theorem c2_route_dedup (r : Registry) (hs : r.speakers.Nodup)
    (hk : (r.participantLanguages.map Prod.fst).Nodup) :
    (expectedRoutes r).Nodup ∧
      ∀ s, ((expectedRoutes r).filter (fun p => p.1 == s)).length
        ≤ (otherEnabledTargets r s).length := by
  refine ⟨nodup_expectedRoutes r hs, fun s => ?_⟩
  exact le_trans (filter_fst_flatMap_length r r.speakers hs s)
    (routesForSpeaker_length_le r s hk)

/-- Witness for c2_route_dedup: in dedupDemoRegistry two participants want
es, yet the required set is the duplicate-free [(A, es), (B, en)], and
speaker A has one route, bounded by the one distinct enabled target language
(es) of the other participants. -/
theorem c2_route_dedup_witness :
    (expectedRoutes dedupDemoRegistry).Nodup ∧
      ((expectedRoutes dedupDemoRegistry).filter (fun p => p.1 == "A")).length
        ≤ (otherEnabledTargets dedupDemoRegistry "A").length :=
  ⟨(c2_route_dedup dedupDemoRegistry (by decide) (by decide)).1,
   (c2_route_dedup dedupDemoRegistry (by decide) (by decide)).2 "A"⟩

/-- C1: failing interleaving for the no-duplicate-live-pipeline invariant.
Two reconcile passes for oneRouteRegistry are scheduled concurrently with
asyncio.create_task (for example a track_published event and a
language_update event).  Task 1 checks that X:es is absent from the
assistants map and suspends at the await session.start inside
_create_assistant_for_pair with its session already live; because the map is
written only after the start completes, task 2 then also finds X:es absent
and starts a second session.  The reached state has two provider sessions
for the route (X, es) live (Starting/Active) simultaneously, violating the
claimed invariant; the map itself never holds two entries for the key. -/
theorem c1_concurrent_duplicate_start :
    ConcReachable c1InitState c1BadState ∧
      c1BadState.live.count "X:es" = 2 ∧ ¬ c1BadState.live.Nodup := by
  refine ⟨?_, by decide, by decide⟩
  have h1 : ConcStep c1InitState c1MidState :=
    ConcStep.check1Absent [] [] "X:es" TaskProg.done (reconcileProg oneRouteRegistry) rfl
  have h2 : ConcStep c1MidState c1BadState :=
    ConcStep.check2Absent [] ["X:es"] "X:es"
      (TaskProg.insertKey "X:es" TaskProg.done) TaskProg.done rfl
  exact Relation.ReflTransGen.head h1 (Relation.ReflTransGen.single h2)

/-- Witness for c5_amended_starts_precede_stops: on the concrete preference
change of prefChangeRegistry the reconcile trace is its starts followed by
its stops, and the surviving entry X:fr is a required key. -/
theorem c5_amended_starts_precede_stops_witness :
    (reconcile (getVadConfig "medium") prefChangeOldMap prefChangeRegistry).2
        = ((reconcile (getVadConfig "medium") prefChangeOldMap
            prefChangeRegistry).2.filter isStart)
          ++ ((reconcile (getVadConfig "medium") prefChangeOldMap
            prefChangeRegistry).2.filter isStop) ∧
      (expectedKeys prefChangeRegistry).contains
        ("X:fr", getVadConfig "medium").1 = true :=
  ⟨(c5_amended_starts_precede_stops (getVadConfig "medium") prefChangeOldMap
      prefChangeRegistry).1,
   (c5_amended_starts_precede_stops (getVadConfig "medium") prefChangeOldMap
      prefChangeRegistry).2 ("X:fr", getVadConfig "medium")
     (by
       show ("X:fr", getVadConfig "medium") ∈ [("X:fr", getVadConfig "medium")]
       simp)⟩
